import Mathlib

/-!
# Verification of the Pintos thread-scheduling core

A shallow embedding of `src/threads/thread.c` / `src/threads/thread.h`
(thread lifecycle, ready-queue discipline, sleep/wakeup, priority donation,
the MLFQS statistics, and the parent/child handshake bookkeeping), together
with theorems settling the specification's claims about it.

Machine integers are modelled as `Int` (the quantities involved — priorities,
nice values, fixed-point statistics — stay far below 32-bit overflow in the
kernel, and the claims under study are not about overflow). C integer
division truncates toward zero, which is `Int.tdiv`.
-/

namespace Pintos

/-! ## Constants from `threads/thread.h` -/

/-- `PRI_MIN` — lowest priority (thread.h line 26). -/
def PRI_MIN : Int := 0

/-- `PRI_DEFAULT` — default priority (thread.h line 27). -/
def PRI_DEFAULT : Int := 31

/-- `PRI_MAX` — highest priority (thread.h line 28). -/
def PRI_MAX : Int := 63

/-- `NICE_MIN` — lowest nice (thread.h line 29). -/
def NICE_MIN : Int := -20

/-- `NICE_MAX` — highest nice (thread.h line 31). -/
def NICE_MAX : Int := 20

/-- `TID_ERROR` — distinct error value returned by a failed create. -/
def TID_ERROR : Int := -1

/-! ## Fixed-point arithmetic

`threads/fixed_point.h` is not part of the sources provided under `src/`;
only its call sites in `thread.c` are. -/

/-- Modelled from the spec: `threads/fixed_point.h` (not under `src/`) —
"represents fractional quantities ... using a scaled-integer encoding".
The conventional Pintos encoding scales by `F = 2^14` (17.14 format). -/
def FP_F : Int := 16384

/-- Modelled from the spec: fixed_point.h `CONVERT_TO_FP(n)` — an integer
scaled into fixed point. -/
def CONVERT_TO_FP (n : Int) : Int := n * FP_F

/-- Modelled from the spec: fixed_point.h `CONVERT_TO_INT_ROUND(x)` —
fixed point converted to integer, rounding to nearest (C truncating
division applied after adding/subtracting `F/2`). -/
def CONVERT_TO_INT_ROUND (x : Int) : Int :=
  if 0 ≤ x then (x + FP_F / 2).tdiv FP_F else (x - FP_F / 2).tdiv FP_F

/-- Modelled from the spec: fixed_point.h `ADD_INT(x, n)` — fixed point plus
integer. -/
def ADD_INT (x n : Int) : Int := x + n * FP_F

/-- Modelled from the spec: fixed_point.h `MULT(x, y)` — fixed-point
multiplication (the product rescaled by `F`). -/
def MULT (x y : Int) : Int := (x * y).tdiv FP_F

/-- Modelled from the spec: fixed_point.h `MULT_INT(x, n)` — fixed point
times integer. -/
def MULT_INT (x n : Int) : Int := x * n

/-- Modelled from the spec: fixed_point.h `DIV(x, y)` — fixed-point
division (the dividend rescaled by `F`). -/
def DIV (x y : Int) : Int := (x * FP_F).tdiv y

/-- Modelled from the spec: fixed_point.h `DIV_INT(x, n)` — fixed point
divided by integer (C truncating division). -/
def DIV_INT (x n : Int) : Int := x.tdiv n

/-! ## The thread control block

`struct thread` (thread.h lines 128–172), restricted to the fields the
scheduling code under study reads or writes.  The machine-level fields
(`stack`, `magic`, the page-directory and file-system handles) are opaque to
every claim and are left out; `tid` is a `Nat` identity.  A lock, as seen by
`thread.c`, is its identity plus its `max_priority` field (the highest
priority among its waiters, maintained by the external `synch.c`). -/

/-- The part of `struct lock` visible to `thread.c`: its identity and its
`max_priority` member (used by `lock_priority_more` and
`thread_remove_lock`). -/
structure LockInfo where
  lid : Nat
  max_priority : Int
deriving DecidableEq, Repr

/-- States in a thread's life cycle (`enum thread_status`). -/
inductive TStatus
  | running
  | ready
  | blocked
  | dying
deriving DecidableEq, Repr

/-- `struct thread`, scheduling-relevant fields. `isIdle` marks the
distinguished idle thread (the C code compares pointers against the
`idle_thread` global; the model carries the comparison's result). -/
structure Thread where
  tid : Nat
  status : TStatus
  priority : Int
  old_priority : Int
  nice : Int
  recent_cpu : Int
  wakeup_time : Int
  locks : List LockInfo
  isIdle : Bool
deriving DecidableEq, Repr

/-! ## Ordered-list insertion

`lib/kernel/list.c` is not under `src/`; `thread.c` relies on its
`list_insert_ordered` and `list_sort`. -/

/-- Modelled from the spec: `lib/kernel/list.c list_insert_ordered` (not
under `src/`) — a new element is placed "at its priority-sorted position"
and "after existing entries of the same priority" (FIFO among equals):
it is inserted before the first existing element that compares strictly
after it under `less`. -/
def listInsertOrdered {α : Type} (less : α → α → Bool) (x : α) : List α → List α
  | [] => [x]
  | y :: ys => if less x y then x :: y :: ys else y :: listInsertOrdered less x ys

/-- Modelled from the spec: `lib/kernel/list.c list_sort` (not under
`src/`) — the queue is "re-sorted to respect the new priorities" with FIFO
preserved among equal priorities: a stable sort by `less`.  `insertFront`
places the element before the first existing element it does not compare
strictly after, so earlier input elements stay ahead of equal later ones. -/
def insertFront {α : Type} (less : α → α → Bool) (x : α) : List α → List α
  | [] => [x]
  | y :: ys => if less y x then y :: insertFront less x ys else x :: y :: ys

/-- Modelled from the spec: `lib/kernel/list.c list_sort` — stable sort
built on `insertFront`. -/
def listSortStable {α : Type} (less : α → α → Bool) : List α → List α
  | [] => []
  | x :: xs => insertFront less x (listSortStable less xs)

/-- `thread_priority_more` (thread.c lines 904–915): orders threads by
strictly greater priority. -/
def thread_priority_more (a b : Thread) : Bool := a.priority > b.priority

/-- `lock_priority_more` (thread.c lines 917–928): orders locks by strictly
greater `max_priority`. -/
def lock_priority_more (a b : LockInfo) : Bool := a.max_priority > b.max_priority

/-- `wakeup_time_less` (thread.c lines 891–902): orders threads by strictly
smaller wakeup time. -/
def wakeup_time_less (a b : Thread) : Bool := a.wakeup_time < b.wakeup_time

/-! ## Per-thread MLFQS recomputation -/

/-- `update_priority` (thread.c lines 514–521): skip the idle thread;
otherwise `priority = PRI_MAX - CONVERT_TO_INT_ROUND (DIV_INT (recent_cpu,
4)) - nice * 2`, then clamped below by `PRI_MIN` and above by `PRI_MAX`. -/
def update_priority (t : Thread) : Thread :=
  if t.isIdle then t
  else
    let p0 := PRI_MAX - CONVERT_TO_INT_ROUND (DIV_INT t.recent_cpu 4) - t.nice * 2
    let p1 := if p0 < PRI_MIN then PRI_MIN else p0
    let p2 := if p1 > PRI_MAX then PRI_MAX else p1
    { t with priority := p2 }

/-- `update_recent_cpu` (thread.c lines 591–597): skip the idle thread;
otherwise `recent_cpu = (2*load_avg)/(2*load_avg + 1) * recent_cpu + nice`
in fixed point. -/
def update_recent_cpu (load_avg : Int) (t : Thread) : Thread :=
  if t.isIdle then t
  else
    let coefficient := DIV (MULT_INT load_avg 2) (ADD_INT (MULT_INT load_avg 2) 1)
    { t with recent_cpu := ADD_INT (MULT coefficient t.recent_cpu) t.nice }

/-- `thread_get_recent_cpu` (thread.c lines 575–579): returns 100 times the
thread's `recent_cpu`, rounded to integer. -/
def thread_get_recent_cpu (t : Thread) : Int :=
  CONVERT_TO_INT_ROUND (MULT_INT t.recent_cpu 100)

/-- `update_load_avg` (thread.c lines 565–572): `ready_threads` is the size
of the ready list, plus one when the current thread is not the idle thread;
`load_avg = MULT (DIV_INT (CONVERT_TO_FP 59, 60), load_avg) + MULT_INT
(DIV_INT (CONVERT_TO_FP 1, 60), ready_threads)`. -/
def update_load_avg (load_avg : Int) (readyLen : Nat) (curIsIdle : Bool) : Int :=
  let ready_threads : Int := if curIsIdle then (readyLen : Int) else (readyLen : Int) + 1
  MULT (DIV_INT (CONVERT_TO_FP 59) 60) load_avg
    + MULT_INT (DIV_INT (CONVERT_TO_FP 1) 60) ready_threads

/-- Follows the spec's words (§4.5): "`load_avg = (59/60)·load_avg +
(1/60)·ready_threads`, where `ready_threads` counts all READY threads plus
the RUNNING thread (excluding the idle unit)", the two fractions taken as
the fixed-point quotients 59/60 and 1/60. -/
def spec_update_load_avg (load_avg : Int) (readyLen : Nat) (curIsIdle : Bool) : Int :=
  let ready_threads : Int := if curIsIdle then (readyLen : Int) else (readyLen : Int) + 1
  MULT (DIV (CONVERT_TO_FP 59) (CONVERT_TO_FP 60)) load_avg
    + MULT_INT (DIV (CONVERT_TO_FP 1) (CONVERT_TO_FP 60)) ready_threads

/-! ## Priority donation bookkeeping on a single thread -/

/-- `thread_remove_lock` (thread.c lines 640–657): remove the released lock
from the holder's `locks` list; if no locks remain, `priority :=
old_priority`; otherwise, when the front lock's `max_priority` exceeds
`old_priority`, `priority := max_priority` — and in the remaining case the
priority field is left untouched. -/
def thread_remove_lock (cur : Thread) (lid : Nat) : Thread :=
  let locks := cur.locks.eraseP (fun l => l.lid == lid)
  match locks with
  | [] => { cur with locks := [], priority := cur.old_priority }
  | l :: rest =>
      if l.max_priority > cur.old_priority
      then { cur with locks := l :: rest, priority := l.max_priority }
      else { cur with locks := l :: rest }

/-- `thread_hold_the_lock` (thread.c lines 614–618): insert the acquired
lock into the holder's list, ordered by `lock_priority_more`. -/
def thread_hold_the_lock (cur : Thread) (lock : LockInfo) : Thread :=
  { cur with locks := listInsertOrdered lock_priority_more lock cur.locks }

/-- The highest `max_priority` among a non-empty held-locks list
(head-seeded fold, as the claim's "max over held locks"). -/
def locksMaxPriority (l : LockInfo) (rest : List LockInfo) : Int :=
  rest.foldl (fun m k => max m k.max_priority) l.max_priority

/-! ## The scheduler state

The globals of `thread.c` that the ready-queue claims range over: the
running thread, `ready_list`, the blocked threads (those sitting in
external wait queues or the sleep queue), the distinguished `idle_thread`,
`load_avg`, and the `thread_mlfqs` toggle.  Each exported operation of
`thread.c` runs its queue manipulation with interrupts masked, so each is
one atomic step on this state. -/

structure Sched where
  mlfqs : Bool
  current : Thread
  ready_list : List Thread
  blocked : List Thread
  idle : Thread
  load_avg : Int
deriving DecidableEq, Repr

/-- `next_thread_to_run` (thread.c lines 799–806) followed by the switch
(`schedule`/`thread_schedule_tail`): pop the front of the ready list, or
run the idle thread when the list is empty; the chosen thread is marked
RUNNING. -/
def scheduleNext (s : Sched) : Sched :=
  match s.ready_list with
  | [] => { s with current := { s.idle with status := .running }, ready_list := [] }
  | n :: rest => { s with current := { n with status := .running }, ready_list := rest }

/-- `thread_unblock` (thread.c lines 350–362): insert the thread into
`ready_list` ordered by `thread_priority_more` and mark it READY.  It does
not touch the running thread. -/
def thread_unblock (s : Sched) (t : Thread) : Sched :=
  { s with ready_list :=
      listInsertOrdered thread_priority_more { t with status := .ready } s.ready_list }

/-- `thread_block` (thread.c lines 332–340): mark the current thread
BLOCKED and dispatch to the next thread. -/
def thread_block (s : Sched) : Sched :=
  scheduleNext { s with blocked := { s.current with status := .blocked } :: s.blocked }

/-- `thread_yield` (thread.c lines 445–459): re-insert the current thread
into `ready_list` at its sorted position (unless it is the idle thread),
mark it READY, and dispatch. -/
def thread_yield (s : Sched) : Sched :=
  let rl := if s.current.isIdle then s.ready_list
            else listInsertOrdered thread_priority_more
                   { s.current with status := .ready } s.ready_list
  scheduleNext { s with ready_list := rl }

/-- `thread_cond_yield` (thread.c lines 460–469): yield when the current
thread is not idle, the ready list is non-empty, and its head has strictly
higher priority than the current thread. -/
def thread_cond_yield (s : Sched) : Sched :=
  match s.ready_list with
  | [] => s
  | h :: _ =>
      if !s.current.isIdle && s.current.priority < h.priority
      then thread_yield s
      else s

/-- `init_thread` (thread.c lines 731–779), scheduling-relevant fields: a
new non-initial thread starts BLOCKED with the given priority as both
`priority` and `old_priority`, `wakeup_time` 0, no locks, and inherits
`nice` and `recent_cpu` from the creator via `thread_get_nice ()` /
`thread_get_recent_cpu ()` (the latter returns the 100-times rounded
readout of the creator's fixed-point `recent_cpu`). -/
def init_thread (creator : Thread) (tid : Nat) (priority : Int) : Thread :=
  { tid := tid
    status := .blocked
    priority := priority
    old_priority := priority
    nice := creator.nice
    recent_cpu := thread_get_recent_cpu creator
    wakeup_time := 0
    locks := []
    isIdle := false }

/-- `thread_create` (thread.c lines 248–323), queue behaviour after a
successful allocation: initialize the thread, unblock it into the ready
list, then — under MLFQS — recompute `recent_cpu` and `priority` of the new
thread (already sitting in the ready list, which is not re-sorted) and of
the creator, and finally `thread_cond_yield`. -/
def thread_create_sched (s : Sched) (tid : Nat) (priority : Int) : Sched :=
  let t := init_thread s.current tid priority
  let s1 := thread_unblock s t
  let s2 :=
    if s1.mlfqs then
      let upd := fun th => if th.tid = tid
        then update_priority (update_recent_cpu s1.load_avg th) else th
      { s1 with
          ready_list := s1.ready_list.map upd
          current := update_priority (update_recent_cpu s1.load_avg s1.current) }
    else s1
  thread_cond_yield s2

/-- `thread_set_priority` (thread.c lines 489–504), the mutation of the
calling thread's own fields: reject out-of-range arguments and MLFQS mode;
record the argument as `old_priority` (the base); assign it to `priority`
when the thread holds no locks or the argument exceeds the current
priority. -/
def thread_set_priority_self (mlfqs : Bool) (cur : Thread) (new_priority : Int) : Thread :=
  if new_priority > PRI_MAX || new_priority < PRI_MIN then cur
  else if mlfqs then cur
  else
    let old_priority := cur.priority
    let cur' := { cur with old_priority := new_priority }
    if cur'.locks.isEmpty || new_priority > old_priority
    then { cur' with priority := new_priority }
    else cur'

/-- `thread_set_priority` (thread.c lines 489–504) as a step on the
scheduler state: the field updates of `thread_set_priority_self`, plus the
`thread_yield ()` performed when the immediate branch is taken. -/
def thread_set_priority_op (s : Sched) (new_priority : Int) : Sched :=
  if new_priority > PRI_MAX || new_priority < PRI_MIN then s
  else if s.mlfqs then s
  else
    let old_priority := s.current.priority
    let cur' := { s.current with old_priority := new_priority }
    if cur'.locks.isEmpty || new_priority > old_priority
    then thread_yield { s with current := { cur' with priority := new_priority } }
    else { s with current := cur' }

/-- `thread_set_nice` (thread.c lines 532–548): reject out-of-range
arguments; skip the idle thread; set `nice`, recompute priority; the
calling thread is RUNNING, so the `THREAD_READY` re-sort branch is dead and
the RUNNING branch performs `thread_cond_yield`. -/
def thread_set_nice_op (s : Sched) (nice : Int) : Sched :=
  if nice > NICE_MAX || nice < NICE_MIN then s
  else if s.current.isIdle then s
  else
    let cur' := update_priority { s.current with nice := nice }
    if cur'.status = .ready
    then { s with current := cur'
                  ready_list := listSortStable thread_priority_more s.ready_list }
    else if cur'.status = .running
    then thread_cond_yield { s with current := cur' }
    else { s with current := cur' }

/-- `thread_donate_priority` (thread.c lines 621–637): set the donee's
priority to the caller's (current thread's) priority; a READY donee is
removed and re-inserted at its new sorted position; a RUNNING donee — the
caller itself — triggers `thread_cond_yield`; any other donee (blocked)
just has its priority field updated. -/
def thread_donate_priority (s : Sched) (d : Nat) : Sched :=
  let p := s.current.priority
  if s.current.tid = d then
    thread_cond_yield s
  else
    match s.ready_list.find? (fun th => th.tid == d) with
    | some t =>
        let rl := s.ready_list.eraseP (fun th => th.tid == d)
        { s with ready_list :=
            listInsertOrdered thread_priority_more { t with priority := p } rl }
    | none =>
        let upd := fun th => if th.tid = d then { th with priority := p } else th
        { s with blocked := s.blocked.map upd }

/-- `update_priority_for_each` (thread.c lines 524–529): recompute every
thread's priority via `thread_foreach update_priority` (the all-threads
registry holds the running, ready and blocked threads), then
`list_sort (&ready_list, thread_priority_more)`. -/
def update_priority_for_each (s : Sched) : Sched :=
  { s with
      current := update_priority s.current
      ready_list := listSortStable thread_priority_more (s.ready_list.map update_priority)
      blocked := s.blocked.map update_priority }

/-- The operations of `thread.c` that a scheduling history is built from
(the claims' "sequence of create/block/unblock/yield/set-priority/donation/
MLFQS-recompute operations"). -/
inductive SchedOp
  | create (tid : Nat) (priority : Int)
  | block
  | unblock (t : Thread)
  | yield
  | setPriority (p : Int)
  | donate (d : Nat)
  | recompute
deriving Repr

/-- One operation applied to the scheduler state. -/
def schedStep (s : Sched) : SchedOp → Sched
  | .create tid p => thread_create_sched s tid p
  | .block => thread_block s
  | .unblock t => thread_unblock s t
  | .yield => thread_yield s
  | .setPriority p => thread_set_priority_op s p
  | .donate d => thread_donate_priority s d
  | .recompute => update_priority_for_each s

/-- A sequence of operations applied in order. -/
def schedRun (s : Sched) : List SchedOp → Sched
  | [] => s
  | op :: ops => schedRun (schedStep s op) ops

/-- The ready queue is sorted in descending order of priority. -/
def ReadySorted (s : Sched) : Prop :=
  s.ready_list.Pairwise (fun a b => a.priority ≥ b.priority)

instance (s : Sched) : Decidable (ReadySorted s) := by
  unfold ReadySorted; infer_instance

/-! ## Sleep and tick-driven wakeup

`thread_sleep` / `thread_wakeup` (thread.c lines 177–212) together with the
per-tick driver `thread_tick` (lines 153–174), as a system whose state is
the timer value, the sleep queue, and the identities of the threads
unblocked so far. -/

structure SleepSys where
  now : Int
  sleeping : List Thread
  readyIds : List Nat
deriving DecidableEq, Repr

/-- The loop of `thread_wakeup` (thread.c lines 191–212): walk the sleep
queue from the front; stop at the first entry whose `wakeup_time` exceeds
the timer; every earlier entry has its `wakeup_time` reset to 0, is removed
and unblocked.  Returns (unblocked entries, remaining queue). -/
def thread_wakeup_split (now : Int) : List Thread → List Thread × List Thread
  | [] => ([], [])
  | t :: rest =>
      if t.wakeup_time > now then ([], t :: rest)
      else
        let (w, r) := thread_wakeup_split now rest
        ({ t with wakeup_time := 0 } :: w, r)

/-- `thread_sleep` (thread.c lines 177–188): the calling (RUNNING) thread
sets `wakeup_time := timer_ticks () + ticks`, inserts itself into the sleep
queue ordered by `wakeup_time_less`, and blocks. -/
def thread_sleep (sys : SleepSys) (t : Thread) (ticks : Int) : SleepSys :=
  let e := { t with wakeup_time := sys.now + ticks, status := TStatus.blocked }
  { sys with sleeping := listInsertOrdered wakeup_time_less e sys.sleeping }

/-- One timer tick: the timer advances by one and `thread_tick` runs
`thread_wakeup`, which unblocks the due prefix of the sleep queue
(`thread_unblock` makes each of them READY). -/
def sleep_tick (sys : SleepSys) : SleepSys :=
  let now := sys.now + 1
  let (w, r) := thread_wakeup_split now sys.sleeping
  { now := now, sleeping := r, readyIds := sys.readyIds ++ w.map Thread.tid }

/-- `k` consecutive timer ticks. -/
def sleep_run : Nat → SleepSys → SleepSys
  | 0, sys => sys
  | k + 1, sys => sleep_run k (sleep_tick sys)

/-- The sleep queue is sorted by ascending wakeup time. -/
def SleepSorted (l : List Thread) : Prop :=
  l.Pairwise (fun a b => a.wakeup_time ≤ b.wakeup_time)

instance (l : List Thread) : Decidable (SleepSorted l) := by
  unfold SleepSorted; infer_instance

/-! ## The allocation skeleton of `thread_create`

`thread_create` (thread.c lines 248–323) performs two page allocations: the
thread's own page (checked against NULL, returning `TID_ERROR`) and the
`child_info` record's page, whose result is dereferenced with no check.
The model tracks the registrations visible to the caller. -/

/-- The caller-visible registries touched by `thread_create`: the
all-threads registry (`init_thread` inserts the new TCB), the global child
list, and the ready list. -/
structure CreateState where
  all_list : List Nat
  child_list : List Nat
  ready_list : List Nat
deriving DecidableEq, Repr

/-- Outcome of a `thread_create` call: a thread id, the distinct error
value `TID_ERROR`, or a crash (dereference of a NULL allocation result, a
fatal page fault in the kernel). -/
inductive CreateResult
  | ok (tid : Nat)
  | tidError
  | crash
deriving DecidableEq, Repr

/-- `thread_create` (thread.c lines 248–323), allocation and registration
skeleton: `palloc_get_page` for the TCB returning NULL yields `TID_ERROR`
with nothing yet modified; otherwise `init_thread` registers the thread in
the all-threads registry, and the second `palloc_get_page` for the
`child_info` record is assigned to `info` and dereferenced
(`info->child_id = tid`) with no NULL check — its failure is a crash, after
the registry was already modified.  On success the record joins
`child_list` and `thread_unblock` admits the thread to the ready list. -/
def thread_create_alloc (tcbPageAvail infoPageAvail : Bool) (tid : Nat)
    (s : CreateState) : CreateResult × CreateState :=
  if !tcbPageAvail then (.tidError, s)
  else
    let s1 := { s with all_list := s.all_list ++ [tid] }
    if !infoPageAvail then (.crash, s1)
    else
      let s2 := { s1 with child_list := s1.child_list ++ [tid] }
      let s3 := { s2 with ready_list := s2.ready_list ++ [tid] }
      (.ok tid, s3)

/-! ## The parent/child handshake record and page lifetimes

`thread_create` builds the `child_info` record in a page of its own, but
wires its semaphore pointers into the child's TCB page:
`info->sema_start = &t->sema_start; info->sema_finish = &t->sema_finish`
(thread.c lines 276–277), where `sema_start`/`sema_finish` are members of
`struct thread` (thread.h lines 152–153).  `thread_schedule_tail`
(thread.c lines 824–852) frees a dying thread's TCB page at the next
switch; the record page itself is never freed (entries are never removed
from `child_list`). -/

/-- The two pages a spawn allocates. -/
inductive Page
  | tcb
  | record
deriving DecidableEq, Repr

/-- From `thread_create` (thread.c line 277): the page hosting the storage
`info->sema_finish` points to — `&t->sema_finish` lies inside the child's
TCB page. -/
def sema_finish_page : Page := .tcb

/-- From `thread_create` (thread.c line 276): the page hosting the storage
`info->sema_start` points to — `&t->sema_start` lies inside the child's
TCB page. -/
def sema_start_page : Page := .tcb

/-- From `thread_create` (thread.c line 278) and `struct child_info`
(thread.h line 56): `info->ret_value` is a member of the record itself,
hosted by the record's own page. -/
def ret_value_page : Page := .record

/-- Liveness of the two pages of one spawned child, plus whether the child
has run its exit sequence. -/
structure LifeState where
  tcbLive : Bool
  recordLive : Bool
  childExited : Bool
deriving DecidableEq, Repr

/-- Just after `thread_create`: both pages allocated, child not exited. -/
def spawn_life : LifeState :=
  { tcbLive := true, recordLive := true, childExited := false }

/-- `thread_exit` (thread.c lines 399–441): the child ups `sema_finish`,
deregisters, and marks itself DYING; its pages are untouched (it cannot
free the ground it stands on). -/
def child_exit_life (s : LifeState) : LifeState :=
  { s with childExited := true }

/-- `thread_schedule_tail` (thread.c lines 824–852): at the next switch
away from the DYING child, `palloc_free_page (prev)` reclaims its TCB page;
nothing ever frees the `child_info` record's page. -/
def switch_reclaim_life (s : LifeState) : LifeState :=
  { s with tcbLive := false }

/-- Whether a page of this child is still live. -/
def pageLive (s : LifeState) : Page → Bool
  | .tcb => s.tcbLive
  | .record => s.recordLive

/-! ## Concrete inputs used to settle individual claims -/

/-- The wakeup condition of the `thread_wakeup` loop: the entry's wake time
has arrived (`wakeup_time <= timer_ticks ()`), the negation of the loop's
break condition `wakeup_time > timer_ticks ()`. -/
def wakeup_due (now : Int) (t : Thread) : Bool := t.wakeup_time ≤ now

/-- A freshly initialized thread with the given id and priority, no locks,
neutral MLFQS statistics. -/
def mkThread (tid : Nat) (p : Int) : Thread :=
  { tid := tid
    status := .ready
    priority := p
    old_priority := p
    nice := 0
    recent_cpu := 0
    wakeup_time := 0
    locks := []
    isIdle := false }

/-- The distinguished idle thread (PRI_MIN, blocked, never enqueued). -/
def idleThread : Thread :=
  { mkThread 0 PRI_MIN with isIdle := true, status := .blocked }

/-- A thread that holds two locks, `lid` 1 with `max_priority` 30 (the
donation source, reflected in the thread's current priority 30) and `lid` 2
with `max_priority` 5, over a base priority of 10. -/
def c1_holder : Thread :=
  { tid := 1
    status := .running
    priority := 30
    old_priority := 10
    nice := 0
    recent_cpu := 0
    wakeup_time := 0
    locks := [⟨1, 30⟩, ⟨2, 5⟩]
    isIdle := false }

/-- Empty caller-visible registries before a `thread_create` call. -/
def c2_state0 : CreateState := ⟨[], [], []⟩

/-- A scheduler state with a running thread of priority 5 and an empty
ready list. -/
def c3_state : Sched :=
  { mlfqs := false
    current := { mkThread 1 5 with status := .running }
    ready_list := []
    blocked := []
    idle := idleThread
    load_avg := 0 }

/-- The blocked priority-10 thread handed to a bare `thread_unblock`. -/
def c3_blocked : Thread := { mkThread 2 10 with status := .blocked }

/-- An MLFQS-mode scheduler state: a running thread with neutral statistics
and a ready list holding one thread of priority 31. -/
def c4_state : Sched :=
  { mlfqs := true
    current := { mkThread 1 31 with status := .running }
    ready_list := [mkThread 2 31]
    blocked := []
    idle := idleThread
    load_avg := 0 }

/-! ## Helper lemmas on ordered insertion and stable sorting -/

theorem mem_listInsertOrdered {α : Type} (less : α → α → Bool) (x a : α) :
    ∀ l : List α, a ∈ listInsertOrdered less x l ↔ a = x ∨ a ∈ l := by
  intro l
  induction l with
  | nil => simp [listInsertOrdered]
  | cons y ys ih =>
      cases h : less x y with
      | true => simp [listInsertOrdered, h]
      | false => simp [listInsertOrdered, h, ih]; tauto

theorem pairwise_listInsertOrdered {α : Type} {R : α → α → Prop} {less : α → α → Bool}
    (h1 : ∀ a b, less a b = true → R a b)
    (h2 : ∀ a b, less a b = false → R b a)
    (htrans : ∀ a b c, R a b → R b c → R a c)
    (x : α) : ∀ l : List α, l.Pairwise R → (listInsertOrdered less x l).Pairwise R := by
  intro l
  induction l with
  | nil => intro _; simp [listInsertOrdered]
  | cons y ys ih =>
      intro hp
      rcases List.pairwise_cons.mp hp with ⟨hy, hys⟩
      cases h : less x y with
      | true =>
          simp only [listInsertOrdered, h, if_pos]
          refine List.Pairwise.cons ?_ hp
          intro z hz
          rcases List.mem_cons.mp hz with rfl | hz'
          · exact h1 _ _ h
          · exact htrans x y z (h1 _ _ h) (hy z hz')
      | false =>
          simp only [listInsertOrdered, h, Bool.false_eq_true, if_neg, not_false_iff]
          refine List.Pairwise.cons ?_ (ih hys)
          intro z hz
          rcases (mem_listInsertOrdered less x z ys).mp hz with rfl | hz'
          · exact h2 _ _ h
          · exact hy z hz'

theorem mem_insertFront {α : Type} (less : α → α → Bool) (x a : α) :
    ∀ l : List α, a ∈ insertFront less x l ↔ a = x ∨ a ∈ l := by
  intro l
  induction l with
  | nil => simp [insertFront]
  | cons y ys ih =>
      cases h : less y x with
      | true => simp [insertFront, h, ih]; tauto
      | false => simp [insertFront, h]

theorem pairwise_insertFront {α : Type} {R : α → α → Prop} {less : α → α → Bool}
    (h1 : ∀ a b, less a b = true → R a b)
    (h2 : ∀ a b, less a b = false → R b a)
    (htrans : ∀ a b c, R a b → R b c → R a c)
    (x : α) : ∀ l : List α, l.Pairwise R → (insertFront less x l).Pairwise R := by
  intro l
  induction l with
  | nil => intro _; simp [insertFront]
  | cons y ys ih =>
      intro hp
      rcases List.pairwise_cons.mp hp with ⟨hy, hys⟩
      cases h : less y x with
      | true =>
          simp only [insertFront, h, if_pos]
          refine List.Pairwise.cons ?_ (ih hys)
          intro z hz
          rcases (mem_insertFront less x z ys).mp hz with rfl | hz'
          · exact h1 _ _ h
          · exact hy z hz'
      | false =>
          simp only [insertFront, h, Bool.false_eq_true, if_neg, not_false_iff]
          refine List.Pairwise.cons ?_ hp
          intro z hz
          rcases List.mem_cons.mp hz with rfl | hz'
          · exact h2 _ _ h
          · exact htrans x y z (h2 _ _ h) (hy z hz')

theorem pairwise_listSortStable {α : Type} {R : α → α → Prop} {less : α → α → Bool}
    (h1 : ∀ a b, less a b = true → R a b)
    (h2 : ∀ a b, less a b = false → R b a)
    (htrans : ∀ a b c, R a b → R b c → R a c) :
    ∀ l : List α, (listSortStable less l).Pairwise R := by
  intro l
  induction l with
  | nil => simp [listSortStable]
  | cons x xs ih => exact pairwise_insertFront h1 h2 htrans x _ ih

theorem listInsertOrdered_split {α : Type} (less : α → α → Bool) (x : α) :
    ∀ l : List α,
      listInsertOrdered less x l
        = l.takeWhile (fun y => !less x y) ++ x :: l.dropWhile (fun y => !less x y) := by
  intro l
  induction l with
  | nil => rfl
  | cons y ys ih =>
      cases h : less x y with
      | true => simp [listInsertOrdered, h]
      | false => simp [listInsertOrdered, h, ih]

/-! ## Sortedness of the ready queue under each operation -/

theorem pairwisePrio_insert (x : Thread) {l : List Thread}
    (h : l.Pairwise (fun a b => a.priority ≥ b.priority)) :
    (listInsertOrdered thread_priority_more x l).Pairwise
      (fun a b => a.priority ≥ b.priority) := by
  refine pairwise_listInsertOrdered ?_ ?_ ?_ x l h
  · intro a b hab; simp [thread_priority_more] at hab; omega
  · intro a b hab; simp [thread_priority_more] at hab; omega
  · intro a b c h1 h2; omega

theorem pairwisePrio_sort (l : List Thread) :
    (listSortStable thread_priority_more l).Pairwise
      (fun a b => a.priority ≥ b.priority) := by
  refine pairwise_listSortStable ?_ ?_ ?_ l
  · intro a b hab; simp [thread_priority_more] at hab; omega
  · intro a b hab; simp [thread_priority_more] at hab; omega
  · intro a b c h1 h2; omega

theorem readySorted_scheduleNext {s : Sched} (h : ReadySorted s) :
    ReadySorted (scheduleNext s) := by
  unfold ReadySorted at *
  unfold scheduleNext
  cases hl : s.ready_list with
  | nil => simp
  | cons n rest =>
      rw [hl] at h
      simpa using (List.pairwise_cons.mp h).2

theorem readySorted_yield {s : Sched} (h : ReadySorted s) :
    ReadySorted (thread_yield s) := by
  unfold thread_yield
  apply readySorted_scheduleNext
  unfold ReadySorted at *
  by_cases hi : s.current.isIdle
  · simpa [hi] using h
  · simpa [hi] using pairwisePrio_insert _ h

theorem readySorted_cond_yield {s : Sched} (h : ReadySorted s) :
    ReadySorted (thread_cond_yield s) := by
  unfold thread_cond_yield
  cases hl : s.ready_list with
  | nil => exact h
  | cons n rest =>
      dsimp only
      split
      · exact readySorted_yield h
      · exact h

theorem readySorted_unblock {s : Sched} (t : Thread) (h : ReadySorted s) :
    ReadySorted (thread_unblock s t) := by
  unfold ReadySorted at *
  exact pairwisePrio_insert _ h

theorem readySorted_block {s : Sched} (h : ReadySorted s) :
    ReadySorted (thread_block s) := by
  unfold thread_block
  exact readySorted_scheduleNext h

theorem readySorted_create {s : Sched} (tid : Nat) (p : Int)
    (hm : s.mlfqs = false) (h : ReadySorted s) :
    ReadySorted (thread_create_sched s tid p) := by
  unfold thread_create_sched
  have hm1 : (thread_unblock s (init_thread s.current tid p)).mlfqs = false := hm
  simp only [hm1, Bool.false_eq_true, if_neg, not_false_iff]
  exact readySorted_cond_yield (readySorted_unblock _ h)

theorem readySorted_set_priority {s : Sched} (p : Int) (h : ReadySorted s) :
    ReadySorted (thread_set_priority_op s p) := by
  unfold thread_set_priority_op
  split
  · exact h
  · split
    · exact h
    · dsimp only
      split
      · exact readySorted_yield h
      · exact h

theorem readySorted_donate {s : Sched} (d : Nat) (h : ReadySorted s) :
    ReadySorted (thread_donate_priority s d) := by
  unfold thread_donate_priority
  split
  · exact readySorted_cond_yield h
  · dsimp only
    cases hf : s.ready_list.find? (fun th => th.tid == d) with
    | some t =>
        simp only [hf]
        unfold ReadySorted at *
        exact pairwisePrio_insert _ (h.sublist (List.eraseP_sublist _))
    | none => simp only [hf]; exact h

theorem readySorted_recompute {s : Sched} :
    ReadySorted (update_priority_for_each s) := by
  unfold ReadySorted update_priority_for_each
  exact pairwisePrio_sort _

theorem readySorted_step {s : Sched} (op : SchedOp)
    (hm : s.mlfqs = false) (h : ReadySorted s) : ReadySorted (schedStep s op) := by
  cases op with
  | create tid p => exact readySorted_create tid p hm h
  | block => exact readySorted_block h
  | unblock t => exact readySorted_unblock t h
  | yield => exact readySorted_yield h
  | setPriority p => exact readySorted_set_priority p h
  | donate d => exact readySorted_donate d h
  | recompute => exact readySorted_recompute

theorem scheduleNext_mlfqs (s : Sched) : (scheduleNext s).mlfqs = s.mlfqs := by
  unfold scheduleNext
  cases s.ready_list <;> rfl

theorem thread_yield_mlfqs (s : Sched) : (thread_yield s).mlfqs = s.mlfqs := by
  unfold thread_yield
  exact scheduleNext_mlfqs _

theorem thread_cond_yield_mlfqs (s : Sched) : (thread_cond_yield s).mlfqs = s.mlfqs := by
  unfold thread_cond_yield
  cases s.ready_list with
  | nil => rfl
  | cons n rest =>
      dsimp only
      split
      · exact thread_yield_mlfqs _
      · rfl

theorem schedStep_mlfqs (s : Sched) (op : SchedOp) : (schedStep s op).mlfqs = s.mlfqs := by
  cases op with
  | create tid p =>
      show (thread_create_sched s _ _).mlfqs = s.mlfqs
      unfold thread_create_sched
      dsimp only
      rw [thread_cond_yield_mlfqs]
      split <;> rfl
  | block =>
      show (thread_block s).mlfqs = s.mlfqs
      unfold thread_block
      exact scheduleNext_mlfqs _
  | unblock t => rfl
  | yield => exact thread_yield_mlfqs s
  | setPriority p =>
      show (thread_set_priority_op s p).mlfqs = s.mlfqs
      unfold thread_set_priority_op
      split
      · rfl
      · split
        · rfl
        · dsimp only
          split
          · exact thread_yield_mlfqs _
          · rfl
  | donate d =>
      show (thread_donate_priority s d).mlfqs = s.mlfqs
      unfold thread_donate_priority
      split
      · exact thread_cond_yield_mlfqs _
      · dsimp only
        cases s.ready_list.find? (fun th => th.tid == d) <;> rfl
  | recompute => rfl

theorem readySorted_run : ∀ (ops : List SchedOp) (s : Sched),
    s.mlfqs = false → ReadySorted s → ReadySorted (schedRun s ops) := by
  intro ops
  induction ops with
  | nil => intro s _ h; exact h
  | cons op rest ih =>
      intro s hm h
      exact ih _ (by rw [schedStep_mlfqs]; exact hm) (readySorted_step op hm h)

/-! ## Prompt preemption through `thread_cond_yield` -/

theorem listInsertOrdered_head_ge (x : Thread) (l : List Thread) :
    ∃ hd tl, listInsertOrdered thread_priority_more x l = hd :: tl
      ∧ x.priority ≤ hd.priority := by
  cases l with
  | nil => exact ⟨x, [], rfl, le_refl _⟩
  | cons y ys =>
      cases hxy : thread_priority_more x y with
      | true => exact ⟨x, y :: ys, by simp [listInsertOrdered, hxy], le_refl _⟩
      | false =>
          refine ⟨y, listInsertOrdered thread_priority_more x ys,
            by simp [listInsertOrdered, hxy], ?_⟩
          simp [thread_priority_more] at hxy
          omega

theorem cond_yield_to_head {s : Sched} {hd : Thread} {rest : List Thread}
    (hrl : s.ready_list = hd :: rest) (hi : s.current.isIdle = false)
    (hlt : s.current.priority < hd.priority) :
    (thread_cond_yield s).current.priority = hd.priority := by
  unfold thread_cond_yield
  rw [hrl]
  dsimp only
  rw [if_pos (by rw [hi]; simpa using hlt)]
  unfold thread_yield
  rw [hi]
  dsimp only [Bool.false_eq_true, if_neg, not_false_iff]
  rw [hrl]
  have hmore : thread_priority_more { s.current with status := TStatus.ready } hd = false := by
    simp [thread_priority_more]
    omega
  have hins : listInsertOrdered thread_priority_more
      { s.current with status := TStatus.ready } (hd :: rest)
      = hd :: listInsertOrdered thread_priority_more
          { s.current with status := TStatus.ready } rest := by
    simp [listInsertOrdered, hmore]
  rw [hins]
  unfold scheduleNext
  rfl

/-! ## Sleep-queue scan lemmas -/

theorem thread_wakeup_split_eq (now : Int) :
    ∀ q : List Thread,
      thread_wakeup_split now q
        = ((q.takeWhile (wakeup_due now)).map (fun t => { t with wakeup_time := 0 }),
           q.dropWhile (wakeup_due now)) := by
  intro q
  induction q with
  | nil => rfl
  | cons t rest ih =>
      by_cases h : t.wakeup_time > now
      · have hdue : wakeup_due now t = false := by simp [wakeup_due]; omega
        simp [thread_wakeup_split, h, hdue]
      · have hdue : wakeup_due now t = true := by simp [wakeup_due]; omega
        simp [thread_wakeup_split, h, hdue, ih]

theorem mem_dropWhile_of_future {now : Int} {e : Thread} {q : List Thread}
    (he : e ∈ q) (hf : now < e.wakeup_time) :
    e ∈ q.dropWhile (wakeup_due now) := by
  have hsplit : e ∈ q.takeWhile (wakeup_due now) ++ q.dropWhile (wakeup_due now) := by
    rw [List.takeWhile_append_dropWhile]
    exact he
  rcases List.mem_append.mp hsplit with h1 | h2
  · have := List.mem_takeWhile_imp h1
    simp [wakeup_due] at this
    omega
  · exact h2

theorem mem_takeWhile_due_of_sorted {now : Int} :
    ∀ {q : List Thread}, SleepSorted q → ∀ {e : Thread}, e ∈ q →
      e.wakeup_time ≤ now → e ∈ q.takeWhile (wakeup_due now) := by
  intro q
  induction q with
  | nil => intro _ e he _; cases he
  | cons y ys ih =>
      intro hs e he hd
      rcases List.pairwise_cons.mp hs with ⟨hy, hys⟩
      rcases List.mem_cons.mp he with rfl | he'
      · have hdue : wakeup_due now e = true := by simp [wakeup_due]; omega
        simp [hdue]
      · have hyw : y.wakeup_time ≤ now := le_trans (hy e he') hd
        have hdue : wakeup_due now y = true := by simp [wakeup_due]; omega
        simp only [List.takeWhile_cons, hdue, if_pos, List.mem_cons]
        exact Or.inr (ih hys he' hd)

theorem sleep_tick_eq (sys : SleepSys) :
    sleep_tick sys =
      { now := sys.now + 1
        sleeping := sys.sleeping.dropWhile (wakeup_due (sys.now + 1))
        readyIds := sys.readyIds
          ++ ((sys.sleeping.takeWhile (wakeup_due (sys.now + 1))).map
                (fun t => { t with wakeup_time := 0 })).map Thread.tid } := by
  unfold sleep_tick
  dsimp only
  rw [thread_wakeup_split_eq]

theorem sleep_tick_readyIds (sys : SleepSys) :
    (sleep_tick sys).readyIds
      = sys.readyIds
        ++ (sys.sleeping.takeWhile (wakeup_due (sys.now + 1))).map Thread.tid := by
  rw [sleep_tick_eq]
  simp [List.map_map, Function.comp]

theorem filter_tid_eq_nil {tid : Nat} {q : List Thread}
    (hq : ∀ x ∈ q, x.tid ≠ tid) : q.filter (fun x => x.tid == tid) = [] :=
  List.filter_eq_nil_iff.mpr (fun a ha => by simpa using hq a ha)

theorem filter_insert_singleton {e : Thread} {q : List Thread}
    (hq : ∀ x ∈ q, x.tid ≠ e.tid) :
    (listInsertOrdered wakeup_time_less e q).filter (fun x => x.tid == e.tid) = [e] := by
  rw [listInsertOrdered_split, List.filter_append]
  have htake : ∀ x ∈ q.takeWhile (fun y => !wakeup_time_less e y), x.tid ≠ e.tid :=
    fun x hx => hq x ((List.takeWhile_sublist _).subset hx)
  have hdrop : ∀ x ∈ q.dropWhile (fun y => !wakeup_time_less e y), x.tid ≠ e.tid :=
    fun x hx => hq x ((List.dropWhile_sublist _).subset hx)
  rw [filter_tid_eq_nil htake]
  simp [filter_tid_eq_nil hdrop]

theorem pairwiseWake_insert (x : Thread) {l : List Thread}
    (h : l.Pairwise (fun a b => a.wakeup_time ≤ b.wakeup_time)) :
    (listInsertOrdered wakeup_time_less x l).Pairwise
      (fun a b => a.wakeup_time ≤ b.wakeup_time) := by
  refine pairwise_listInsertOrdered ?_ ?_ ?_ x l h
  · intro a b hab; simp [wakeup_time_less] at hab; omega
  · intro a b hab; simp [wakeup_time_less] at hab; omega
  · intro a b c h1 h2; omega

theorem tick_keeps_future {sys : SleepSys} {e : Thread}
    (hs : SleepSorted sys.sleeping)
    (hfil : sys.sleeping.filter (fun x => x.tid == e.tid) = [e])
    (hf : sys.now + 1 < e.wakeup_time)
    (hr : e.tid ∉ sys.readyIds) :
    SleepSorted (sleep_tick sys).sleeping
      ∧ (sleep_tick sys).sleeping.filter (fun x => x.tid == e.tid) = [e]
      ∧ e.tid ∉ (sleep_tick sys).readyIds
      ∧ (sleep_tick sys).now = sys.now + 1 := by
  have he : e ∈ sys.sleeping := by
    have : e ∈ sys.sleeping.filter (fun x => x.tid == e.tid) := by rw [hfil]; simp
    exact List.mem_of_mem_filter this
  have heD : e ∈ sys.sleeping.dropWhile (wakeup_due (sys.now + 1)) :=
    mem_dropWhile_of_future he hf
  have hfilsplit :
      (sys.sleeping.takeWhile (wakeup_due (sys.now + 1))).filter (fun x => x.tid == e.tid)
        ++ (sys.sleeping.dropWhile (wakeup_due (sys.now + 1))).filter
             (fun x => x.tid == e.tid) = [e] := by
    rw [← List.filter_append, List.takeWhile_append_dropWhile, hfil]
  have heDf : e ∈ (sys.sleeping.dropWhile (wakeup_due (sys.now + 1))).filter
      (fun x => x.tid == e.tid) :=
    List.mem_filter.mpr ⟨heD, by simp⟩
  have hTnil :
      (sys.sleeping.takeWhile (wakeup_due (sys.now + 1))).filter
        (fun x => x.tid == e.tid) = [] := by
    rcases htf : (sys.sleeping.takeWhile (wakeup_due (sys.now + 1))).filter
        (fun x => x.tid == e.tid) with _ | ⟨a, as⟩
    · exact htf
    · exfalso
      rw [htf, List.cons_append] at hfilsplit
      injection hfilsplit with h1 h2
      have hD : (sys.sleeping.dropWhile (wakeup_due (sys.now + 1))).filter
          (fun x => x.tid == e.tid) = [] :=
        (List.append_eq_nil.mp h2).2
      rw [hD] at heDf
      cases heDf
  have hfilD : (sys.sleeping.dropWhile (wakeup_due (sys.now + 1))).filter
      (fun x => x.tid == e.tid) = [e] := by
    rw [hTnil] at hfilsplit
    simpa using hfilsplit
  refine ⟨?_, ?_, ?_, ?_⟩
  · rw [sleep_tick_eq]
    exact List.Pairwise.sublist (List.dropWhile_sublist _) hs
  · rw [sleep_tick_eq]
    exact hfilD
  · rw [sleep_tick_readyIds]
    intro hmem
    rcases List.mem_append.mp hmem with h | h
    · exact hr h
    · rcases List.mem_map.mp h with ⟨x, hxT, hxtid⟩
      have hxf : x ∈ (sys.sleeping.takeWhile (wakeup_due (sys.now + 1))).filter
          (fun y => y.tid == e.tid) :=
        List.mem_filter.mpr ⟨hxT, by simp [hxtid]⟩
      rw [hTnil] at hxf
      cases hxf
  · rw [sleep_tick_eq]

theorem tick_wakes_due {sys : SleepSys} {e : Thread}
    (hs : SleepSorted sys.sleeping) (he : e ∈ sys.sleeping)
    (hd : e.wakeup_time ≤ sys.now + 1) :
    e.tid ∈ (sleep_tick sys).readyIds := by
  rw [sleep_tick_readyIds]
  apply List.mem_append.mpr
  right
  exact List.mem_map.mpr ⟨e, mem_takeWhile_due_of_sorted hs he hd, rfl⟩

theorem sleep_phase1 {e : Thread} : ∀ (j : Nat) (sys : SleepSys),
    SleepSorted sys.sleeping →
    sys.sleeping.filter (fun x => x.tid == e.tid) = [e] →
    e.tid ∉ sys.readyIds →
    sys.now + j < e.wakeup_time →
    SleepSorted (sleep_run j sys).sleeping
      ∧ (sleep_run j sys).sleeping.filter (fun x => x.tid == e.tid) = [e]
      ∧ e.tid ∉ (sleep_run j sys).readyIds
      ∧ (sleep_run j sys).now = sys.now + j := by
  intro j
  induction j with
  | zero =>
      intro sys h1 h2 h3 _
      exact ⟨h1, h2, h3, by simp [sleep_run]⟩
  | succ j ih =>
      intro sys h1 h2 h3 hj
      have hfut : sys.now + 1 < e.wakeup_time := by push_cast at hj; omega
      obtain ⟨s1, s2, s3, s4⟩ := tick_keeps_future h1 h2 hfut h3
      have hstep := ih (sleep_tick sys) s1 s2 s3
        (by rw [s4]; push_cast at hj ⊢; omega)
      refine ⟨hstep.1, hstep.2.1, hstep.2.2.1, ?_⟩
      have := hstep.2.2.2
      rw [s4] at this
      rw [show sleep_run (j + 1) sys = sleep_run j (sleep_tick sys) from rfl, this]
      push_cast
      ring

theorem sleep_run_add : ∀ (a b : Nat) (sys : SleepSys),
    sleep_run (a + b) sys = sleep_run b (sleep_run a sys) := by
  intro a
  induction a with
  | zero => intro b sys; rw [Nat.zero_add]; rfl
  | succ a ih =>
      intro b sys
      rw [show a + 1 + b = (a + b) + 1 from by omega]
      show sleep_run (a + b) (sleep_tick sys) = _
      rw [ih]
      rfl

theorem readyIds_mono {x : Nat} : ∀ (k : Nat) (sys : SleepSys),
    x ∈ sys.readyIds → x ∈ (sleep_run k sys).readyIds := by
  intro k
  induction k with
  | zero => intro sys h; exact h
  | succ k ih =>
      intro sys h
      show x ∈ (sleep_run k (sleep_tick sys)).readyIds
      apply ih
      rw [sleep_tick_readyIds]
      exact List.mem_append.mpr (Or.inl h)

/-! ## The front of a descending-sorted lock list is its maximum -/

theorem foldl_max_of_le : ∀ (rest : List LockInfo) (m : Int),
    (∀ k ∈ rest, k.max_priority ≤ m) →
    rest.foldl (fun a k => max a k.max_priority) m = m := by
  intro rest
  induction rest with
  | nil => intro m _; rfl
  | cons k ks ih =>
      intro m h
      have hk : k.max_priority ≤ m := h k (by simp)
      show ks.foldl _ (max m k.max_priority) = m
      rw [max_eq_left hk]
      exact ih m (fun x hx => h x (by simp [hx]))

theorem locksMaxPriority_head {l : LockInfo} {rest : List LockInfo}
    (h : (l :: rest).Pairwise (fun a b => a.max_priority ≥ b.max_priority)) :
    locksMaxPriority l rest = l.max_priority := by
  rcases List.pairwise_cons.mp h with ⟨hl, _⟩
  exact foldl_max_of_le rest l.max_priority (fun k hk => hl k hk)

/-! ## Claims -/

/-- C1, counterexample: a thread with base priority 10, donated priority 30
through lock 1, and a second held lock of max-waiter-priority 5 releases
lock 1; its priority stays 30 instead of `max (old_priority, max-waiter
priority of the remaining locks) = max 10 5 = 10`, so the remaining held
lock's max-waiter-priority lies below the base yet the priority is not
reset to `old_priority`. -/
theorem C1_remove_lock_counterexample :
    (thread_remove_lock c1_holder 1).locks = [⟨2, 5⟩]
      ∧ (thread_remove_lock c1_holder 1).priority = 30
      ∧ c1_holder.old_priority = 10
      ∧ max c1_holder.old_priority (locksMaxPriority ⟨2, 5⟩ []) = 10
      ∧ (thread_remove_lock c1_holder 1).priority
          ≠ max c1_holder.old_priority (locksMaxPriority ⟨2, 5⟩ []) := by
  decide

/-- C1 (amended): after `thread_remove_lock` the released lock is removed
and the base priority is untouched; if no locks remain, the priority is
restored to exactly `old_priority`; otherwise — with the held-locks list
sorted descending by max-waiter-priority — the priority becomes the highest
remaining max-waiter-priority when that exceeds the base, and is left
unchanged (not reset to the base) when it does not. -/
theorem C1_remove_lock_amended (cur : Thread) (lid : Nat)
    (hs : cur.locks.Pairwise (fun a b => a.max_priority ≥ b.max_priority)) :
    ((thread_remove_lock cur lid).locks = cur.locks.eraseP (fun l => l.lid == lid))
    ∧ ((thread_remove_lock cur lid).old_priority = cur.old_priority)
    ∧ (cur.locks.eraseP (fun l => l.lid == lid) = [] →
        (thread_remove_lock cur lid).priority = cur.old_priority)
    ∧ (∀ l rest, cur.locks.eraseP (fun l => l.lid == lid) = l :: rest →
        (thread_remove_lock cur lid).priority
          = (if locksMaxPriority l rest > cur.old_priority
             then locksMaxPriority l rest else cur.priority)) := by
  have hsub := List.eraseP_sublist (p := fun l => l.lid == lid) cur.locks
  unfold thread_remove_lock
  cases he : cur.locks.eraseP (fun l => l.lid == lid) with
  | nil =>
      refine ⟨rfl, rfl, fun _ => rfl, ?_⟩
      intro l rest hcontra
      cases hcontra
  | cons l rest =>
      rw [he] at hsub
      have hsorted : (l :: rest).Pairwise (fun a b => a.max_priority ≥ b.max_priority) :=
        List.Pairwise.sublist hsub hs
      have hmax := locksMaxPriority_head hsorted
      refine ⟨?_, ?_, ?_, ?_⟩
      · by_cases hc : l.max_priority > cur.old_priority <;> simp [hc]
      · by_cases hc : l.max_priority > cur.old_priority <;> simp [hc]
      · intro hcontra; cases hcontra
      · intro l2 rest2 heq
        injection heq with h1 h2
        subst h1
        subst h2
        rw [hmax]
        by_cases hc : cur.old_priority < l.max_priority <;> simp [hc]

/-- C1 witness: the amended theorem applied to the concrete holder thread
releasing its lock 2. -/
theorem C1_remove_lock_amended_witness :
    c1_holder.locks.Pairwise (fun a b => a.max_priority ≥ b.max_priority)
      ∧ (thread_remove_lock c1_holder 2).locks
          = c1_holder.locks.eraseP (fun l => l.lid == 2) :=
  ⟨by decide, (C1_remove_lock_amended c1_holder 2 (by decide)).1⟩

/-- C2: `thread_create` is claimed to turn every allocation failure into a
bare `TID_ERROR` return with the caller's state unchanged.  The TCB-page
failure does behave that way, but when the TCB page is obtained and the
`child_info` record's page is not, the code dereferences the NULL
allocation result (`info->child_id = tid` with no check) — a kernel crash,
not `TID_ERROR` — after the all-threads registry was already modified. -/
theorem C2_create_alloc_failure :
    thread_create_alloc false true 5 c2_state0 = (.tidError, c2_state0)
      ∧ (thread_create_alloc true false 5 c2_state0).1 = .crash
      ∧ (thread_create_alloc true false 5 c2_state0).1 ≠ .tidError
      ∧ (thread_create_alloc true false 5 c2_state0).2 ≠ c2_state0 := by
  decide

/-- C3, counterexample: a bare `thread_unblock` of a priority-10 thread
over a running priority-5 thread leaves the priority-5 thread RUNNING
(`current` unchanged) even though the readied thread's priority is strictly
higher — the readying operation itself performs no yield. -/
theorem C3_unblock_counterexample :
    (schedStep c3_state (.unblock c3_blocked)).current = c3_state.current
      ∧ (schedStep c3_state (.unblock c3_blocked)).ready_list.map Thread.priority = [10]
      ∧ c3_state.current.priority = 5 := by
  decide

/-- C3 (amended): a bare `thread_unblock` never preempts — the running
thread is unchanged by it; `thread_create`, by contrast, conditionally
yields within the same call, so that creating a thread of strictly higher
priority than the running (non-idle) thread, with MLFQS off, leaves a
thread of at least that priority running. -/
theorem C3_preemption_amended :
    (∀ (s : Sched) (t : Thread), (thread_unblock s t).current = s.current)
    ∧ (∀ (s : Sched) (tid : Nat) (p : Int),
        s.mlfqs = false → s.current.isIdle = false → s.current.priority < p →
        p ≤ (schedStep s (.create tid p)).current.priority) := by
  constructor
  · intro s t; rfl
  · intro s tid p hm hi hp
    show p ≤ (thread_create_sched s tid p).current.priority
    unfold thread_create_sched
    have hm1 : (thread_unblock s (init_thread s.current tid p)).mlfqs = false := hm
    simp only [hm1, Bool.false_eq_true, if_neg, not_false_iff]
    obtain ⟨hd, tl, heq, hge⟩ := listInsertOrdered_head_ge
      { init_thread s.current tid p with status := TStatus.ready } s.ready_list
    have hge' : p ≤ hd.priority := hge
    have hrl : (thread_unblock s (init_thread s.current tid p)).ready_list = hd :: tl := heq
    have hcur : (thread_unblock s (init_thread s.current tid p)).current = s.current := rfl
    rw [cond_yield_to_head hrl (by rw [hcur]; exact hi) (by rw [hcur]; omega)]
    exact hge'

/-- C3 witness: the amended theorem applied to the concrete priority-5
state creating a priority-40 thread. -/
theorem C3_preemption_amended_witness :
    c3_state.mlfqs = false
      ∧ c3_state.current.isIdle = false
      ∧ c3_state.current.priority < 40
      ∧ (40 : Int) ≤ (schedStep c3_state (.create 7 40)).current.priority :=
  ⟨rfl, rfl, by decide, C3_preemption_amended.2 c3_state 7 40 rfl rfl (by decide)⟩

/-- C4, counterexample: under MLFQS, `thread_create` inserts the new thread
at a position determined by its argument priority and only afterwards
recomputes that priority (without re-sorting): creating a priority-0 thread
behind a priority-31 entry and recomputing it to 63 leaves the ready queue
ordered [31, 63] — not descending. -/
theorem C4_ready_sorted_counterexample :
    (schedStep c4_state (.create 3 0)).ready_list.map Thread.priority = [31, 63]
      ∧ ¬ ReadySorted (schedStep c4_state (.create 3 0)) := by
  decide

/-- C4 (amended): with MLFQS off, every sequence of create / block /
unblock / yield / set-priority / donation / recompute operations keeps the
ready queue sorted in descending priority order; and ordered insertion
places a newly readied thread after every existing entry it does not
strictly outrank — in particular after all entries of equal priority (FIFO
among equals). -/
theorem C4_ready_sorted_amended :
    (∀ (ops : List SchedOp) (s : Sched), s.mlfqs = false → ReadySorted s →
        ReadySorted (schedRun s ops))
    ∧ (∀ (t : Thread) (l : List Thread),
        listInsertOrdered thread_priority_more t l
          = l.takeWhile (fun y => !thread_priority_more t y)
            ++ t :: l.dropWhile (fun y => !thread_priority_more t y)) :=
  ⟨readySorted_run, fun t l => listInsertOrdered_split thread_priority_more t l⟩

/-- C4 witness: the amended invariant applied to a concrete three-operation
history from the concrete priority-5 state. -/
theorem C4_ready_sorted_amended_witness :
    c3_state.mlfqs = false
      ∧ ReadySorted c3_state
      ∧ ReadySorted (schedRun c3_state
          [.create 7 40, .unblock c3_blocked, .setPriority 50, .yield]) :=
  ⟨rfl, by decide,
    C4_ready_sorted_amended.1 [.create 7 40, .unblock c3_blocked, .setPriority 50, .yield]
      c3_state rfl (by decide)⟩

/-- C5: the tick-driven wakeup scan removes and unblocks exactly the
sleep-queue prefix whose wake time has arrived, stopping at the first
future entry; and a thread calling `thread_sleep n` (n ≥ 1) at tick `T`
over a sorted sleep queue is never among the unblocked threads before tick
`T + n` and is among them at every tick ≥ `T + n`. -/
theorem C5_sleep_wakeup :
    (∀ (now : Int) (q : List Thread),
        thread_wakeup_split now q
          = ((q.takeWhile (wakeup_due now)).map (fun t => { t with wakeup_time := 0 }),
             q.dropWhile (wakeup_due now)))
    ∧ (∀ (sys : SleepSys) (t : Thread) (n k : Nat),
        SleepSorted sys.sleeping →
        t.tid ∉ sys.sleeping.map Thread.tid →
        t.tid ∉ sys.readyIds →
        1 ≤ n →
        ((k < n → t.tid ∉ (sleep_run k (thread_sleep sys t (n : Int))).readyIds)
          ∧ (n ≤ k → t.tid ∈ (sleep_run k (thread_sleep sys t (n : Int))).readyIds))) := by
  constructor
  · exact thread_wakeup_split_eq
  · intro sys t n k hs hnotin hr hn
    have hetid : ({ t with wakeup_time := sys.now + (n : Int), status := TStatus.blocked } : Thread).tid = t.tid := rfl
    have hs0 : SleepSorted (thread_sleep sys t (n : Int)).sleeping :=
      pairwiseWake_insert _ hs
    have hfil0 : (thread_sleep sys t (n : Int)).sleeping.filter
        (fun x => x.tid == ({ t with wakeup_time := sys.now + (n : Int), status := TStatus.blocked } : Thread).tid)
        = [{ t with wakeup_time := sys.now + (n : Int), status := TStatus.blocked }] := by
      apply filter_insert_singleton
      intro x hx hxe
      apply hnotin
      exact List.mem_map.mpr ⟨x, hx, by rw [hxe, hetid]⟩
    have hr0 : ({ t with wakeup_time := sys.now + (n : Int), status := TStatus.blocked } : Thread).tid
        ∉ (thread_sleep sys t (n : Int)).readyIds := by
      rw [hetid]; exact hr
    constructor
    · intro hk
      have hph := sleep_phase1 k (thread_sleep sys t (n : Int)) hs0 hfil0 hr0
        (by show sys.now + (k : Int) < sys.now + (n : Int); omega)
      rw [← hetid]
      exact hph.2.2.1
    · intro hk
      obtain ⟨n', rfl⟩ : ∃ n', n = n' + 1 := ⟨n - 1, by omega⟩
      obtain ⟨m, rfl⟩ : ∃ m, k = (n' + 1) + m := ⟨k - (n' + 1), by omega⟩
      have hph := sleep_phase1 n' (thread_sleep sys t ((n' + 1 : Nat) : Int)) hs0 hfil0 hr0
        (by show sys.now + (n' : Int) < sys.now + ((n' + 1 : Nat) : Int); push_cast; omega)
      have hwoken : ({ t with wakeup_time := sys.now + ((n' + 1 : Nat) : Int), status := TStatus.blocked } : Thread).tid
          ∈ (sleep_tick (sleep_run n' (thread_sleep sys t ((n' + 1 : Nat) : Int)))).readyIds := by
        apply tick_wakes_due hph.1
        · have hm : ({ t with wakeup_time := sys.now + ((n' + 1 : Nat) : Int), status := TStatus.blocked } : Thread)
              ∈ (sleep_run n' (thread_sleep sys t ((n' + 1 : Nat) : Int))).sleeping.filter
                  (fun x => x.tid == ({ t with wakeup_time := sys.now + ((n' + 1 : Nat) : Int), status := TStatus.blocked } : Thread).tid) := by
            rw [hph.2.1]; simp
          exact List.mem_of_mem_filter hm
        · rw [hph.2.2.2]
          show sys.now + ((n' + 1 : Nat) : Int) ≤ sys.now + (n' : Int) + 1
          push_cast
          omega
      have hrun : sleep_run ((n' + 1) + m) (thread_sleep sys t ((n' + 1 : Nat) : Int))
          = sleep_run m (sleep_tick (sleep_run n'
              (thread_sleep sys t ((n' + 1 : Nat) : Int)))) := by
        rw [sleep_run_add (n' + 1) m, sleep_run_add n' 1]
        rfl
      rw [hrun, ← hetid]
      exact readyIds_mono m _ hwoken

/-- C5 witness: a thread with tid 5 sleeping 2 ticks from tick 0 in an
empty system is not yet unblocked after 1 tick and is unblocked after
2 ticks. -/
theorem C5_sleep_wakeup_witness :
    SleepSorted (⟨0, [], []⟩ : SleepSys).sleeping
      ∧ (mkThread 5 10).tid ∉ (⟨0, [], []⟩ : SleepSys).sleeping.map Thread.tid
      ∧ (mkThread 5 10).tid ∉ (⟨0, [], []⟩ : SleepSys).readyIds
      ∧ (mkThread 5 10).tid ∉ (sleep_run 1 (thread_sleep (⟨0, [], []⟩ : SleepSys)
          (mkThread 5 10) ((2 : Nat) : Int))).readyIds
      ∧ (mkThread 5 10).tid ∈ (sleep_run 2 (thread_sleep (⟨0, [], []⟩ : SleepSys)
          (mkThread 5 10) ((2 : Nat) : Int))).readyIds :=
  ⟨by decide, by decide, by decide,
    (C5_sleep_wakeup.2 ⟨0, [], []⟩ (mkThread 5 10) 2 1
      (by decide) (by decide) (by decide) (by decide)).1 (by decide),
    (C5_sleep_wakeup.2 ⟨0, [], []⟩ (mkThread 5 10) 2 2
      (by decide) (by decide) (by decide) (by decide)).2 (by decide)⟩

/-- C6: `update_priority` on a non-idle thread computes `PRI_MAX -
CONVERT_TO_INT_ROUND (DIV_INT (recent_cpu, 4)) - nice * 2` clamped into
`[PRI_MIN, PRI_MAX]`; the result lies in that range for every `recent_cpu`
and `nice`; and the idle thread is never recomputed. -/
theorem C6_update_priority_formula :
    (∀ t : Thread, t.isIdle = false →
        ((update_priority t).priority
            = max PRI_MIN (min PRI_MAX
                (PRI_MAX - CONVERT_TO_INT_ROUND (DIV_INT t.recent_cpu 4) - t.nice * 2))
          ∧ PRI_MIN ≤ (update_priority t).priority
          ∧ (update_priority t).priority ≤ PRI_MAX))
    ∧ (∀ t : Thread, t.isIdle = true → update_priority t = t) := by
  constructor
  · intro t hi
    simp only [update_priority, hi, Bool.false_eq_true, if_false]
    refine ⟨?_, ?_, ?_⟩ <;>
      · simp only [PRI_MIN, PRI_MAX]
        split_ifs <;> omega
  · intro t hi
    simp only [update_priority, hi, if_true]

/-- C6 witness: the clamp bounds at an extreme `recent_cpu`/`nice` input. -/
theorem C6_update_priority_formula_witness :
    ({ mkThread 1 31 with recent_cpu := 99999999, nice := -999 } : Thread).isIdle = false
      ∧ PRI_MIN ≤ (update_priority
          { mkThread 1 31 with recent_cpu := 99999999, nice := -999 }).priority
      ∧ (update_priority
          { mkThread 1 31 with recent_cpu := 99999999, nice := -999 }).priority ≤ PRI_MAX :=
  ⟨rfl,
    (C6_update_priority_formula.1
      { mkThread 1 31 with recent_cpu := 99999999, nice := -999 } rfl).2.1,
    (C6_update_priority_formula.1
      { mkThread 1 31 with recent_cpu := 99999999, nice := -999 } rfl).2.2⟩

/-- C7: `update_load_avg` computes, in fixed point, `(59/60) * load_avg +
(1/60) * ready_threads`, with `ready_threads` the ready-list size plus one
for the running thread unless it is the idle thread — equal for every
input to the formula written with the fixed-point quotients 59/60 and
1/60. -/
theorem C7_load_avg_formula :
    ∀ (load : Int) (readyLen : Nat) (curIsIdle : Bool),
      update_load_avg load readyLen curIsIdle
        = spec_update_load_avg load readyLen curIsIdle := by
  intro load readyLen curIsIdle
  unfold update_load_avg spec_update_load_avg
  rw [show DIV_INT (CONVERT_TO_FP 59) 60
        = DIV (CONVERT_TO_FP 59) (CONVERT_TO_FP 60) from by decide,
      show DIV_INT (CONVERT_TO_FP 1) 60
        = DIV (CONVERT_TO_FP 1) (CONVERT_TO_FP 60) from by decide]

/-- C8: with MLFQS on, `thread_set_priority` has no effect at all; with
MLFQS off and an in-range argument, the argument is always recorded as the
new base (`old_priority`) and becomes the effective priority exactly when
the thread holds no locks or the argument strictly exceeds the current
effective priority. -/
theorem C8_set_priority :
    (∀ (s : Sched) (p : Int), s.mlfqs = true → thread_set_priority_op s p = s)
    ∧ (∀ (cur : Thread) (p : Int),
        PRI_MIN ≤ p → p ≤ PRI_MAX →
        ((thread_set_priority_self false cur p).old_priority = p
          ∧ (thread_set_priority_self false cur p).priority
              = (if cur.locks.isEmpty || p > cur.priority then p else cur.priority))) := by
  constructor
  · intro s p hm
    unfold thread_set_priority_op
    split
    · rfl
    · simp [hm]
  · intro cur p h1 h2
    have hc : ((p > PRI_MAX || p < PRI_MIN) : Bool) = false := by
      simp only [PRI_MIN, PRI_MAX] at h1 h2
      simp only [PRI_MIN, PRI_MAX, Bool.or_eq_false_iff, decide_eq_false_iff_not, not_lt]
      omega
    unfold thread_set_priority_self
    rw [hc]
    simp only [Bool.false_eq_true, if_false]
    by_cases hl : (cur.locks.isEmpty || decide (p > cur.priority)) = true
    · simp [hl]
    · simp only [Bool.not_eq_true] at hl
      simp [hl]

/-- C8 witness: the theorem applied with MLFQS off to a lock-free thread of
priority 31 receiving the in-range priority 40. -/
theorem C8_set_priority_witness :
    PRI_MIN ≤ (40 : Int) ∧ (40 : Int) ≤ PRI_MAX
      ∧ (thread_set_priority_self false (mkThread 1 31) 40).old_priority = 40
      ∧ (thread_set_priority_self false (mkThread 1 31) 40).priority
          = (if (mkThread 1 31).locks.isEmpty || (40 : Int) > (mkThread 1 31).priority
             then (40 : Int) else (mkThread 1 31).priority) :=
  ⟨by decide, by decide,
    (C8_set_priority.2 (mkThread 1 31) 40 (by decide) (by decide)).1,
    (C8_set_priority.2 (mkThread 1 31) 40 (by decide) (by decide)).2⟩

/-- C9: the child record is claimed to remain valid — including the finish
semaphore the parent waits on — after the child's TCB page is reclaimed.
In the code, `thread_create` wires `info->sema_finish` (and
`info->sema_start`) to storage inside the child's own TCB page, while
`info->ret_value` lives in the record's page; after the child exits and the
next switch reclaims the TCB page, the record's page is still live but the
page hosting the finish semaphore is not, so a parent waiting afterwards
dereferences freed storage. -/
theorem C9_handshake_lifetime :
    sema_finish_page = Page.tcb
      ∧ sema_start_page = Page.tcb
      ∧ ret_value_page = Page.record
      ∧ pageLive (switch_reclaim_life (child_exit_life spawn_life)) ret_value_page = true
      ∧ pageLive (switch_reclaim_life (child_exit_life spawn_life)) sema_finish_page
          = false := by
  decide

/-- C10: an out-of-range priority argument and an out-of-range nice
argument are silently rejected: `thread_set_priority` and
`thread_set_nice` return with the scheduler state exactly unchanged — no
abort, no clamping, no field updated. -/
theorem C10_out_of_range_noop :
    ∀ (s : Sched) (p n : Int),
      (p > PRI_MAX ∨ p < PRI_MIN) → (n > NICE_MAX ∨ n < NICE_MIN) →
      thread_set_priority_op s p = s ∧ thread_set_nice_op s n = s := by
  intro s p n hp hn
  constructor
  · have hc : ((p > PRI_MAX || p < PRI_MIN) : Bool) = true := by
      rcases hp with h | h <;> simp [h]
    unfold thread_set_priority_op
    simp [hc]
  · have hc : ((n > NICE_MAX || n < NICE_MIN) : Bool) = true := by
      rcases hn with h | h <;> simp [h]
    unfold thread_set_nice_op
    simp [hc]

/-- C10 witness: value 99 is rejected by both setters on the concrete
priority-5 state. -/
theorem C10_out_of_range_noop_witness :
    ((99 : Int) > PRI_MAX ∨ (99 : Int) < PRI_MIN)
      ∧ ((99 : Int) > NICE_MAX ∨ (99 : Int) < NICE_MIN)
      ∧ thread_set_priority_op c3_state 99 = c3_state
      ∧ thread_set_nice_op c3_state 99 = c3_state :=
  ⟨Or.inl (by decide), Or.inl (by decide),
    (C10_out_of_range_noop c3_state 99 99 (Or.inl (by decide)) (Or.inl (by decide))).1,
    (C10_out_of_range_noop c3_state 99 99 (Or.inl (by decide)) (Or.inl (by decide))).2⟩

end Pintos
